import Mathlib

/-!
Shallow embedding of the `epaper-picture-frame` repository
(`src/display_controller.py`, `src/image_processor.py`,
`src/picture_frame.py`, `src/utils.py`), together with theorems
settling the specification claims about it.

Conventions used throughout:
* Python file paths and file names are modelled as `String`s.
* PIL images are modelled by the `Bitmap` structure: explicit integer
  dimensions and a pixel function `ℕ → ℕ → Bool` (`true` = white `255`,
  `false` = black `0`); a `'1'`-mode (1-bit) PIL image is exactly a
  `Bool`-valued pixel grid, so "strictly 1-bit" holds by the type.
* Python `//` on possibly negative integers is `Int.fdiv` (floor
  division); Python `int()` of a non-negative float is `Int.floor` of
  the exact rational value (the code never feeds `int()` a negative).
* External calls that may raise (the vendor `epd` driver, the
  filesystem write in simulation mode) are given explicit Boolean fault
  flags; a Python call that can let an exception escape to its caller
  returns `PyResult`, with `PyResult.exc` standing for an uncaught
  exception.
-/

namespace EPaperFrame

/-! ## `utils.py` -/

/-- A Python string (file name, extension, …), modelled as its sequence
of characters.  (`String` itself is avoided because its primitives do
not reduce in the kernel.) -/
abbrev PyStr : Type := List Char

/-- Python string comparison `a <= b`: lexicographic by code point. -/
def pyStrLe : PyStr → PyStr → Bool
  | [], _ => true
  | _ :: _, [] => false
  | a :: s, b :: t =>
    if a < b then true else if a = b then pyStrLe s t else false

/-- Python `str.upper()`: per-character uppercasing. -/
def pyUpper (s : PyStr) : PyStr :=
  s.map Char.toUpper

/-- Stable insertion of a string into a list, auxiliary to `pySorted`. -/
def insertSorted (a : PyStr) : List PyStr → List PyStr
  | [] => [a]
  | b :: l => if pyStrLe a b then a :: b :: l else b :: insertSorted a l

/-- Model of Python `sorted` on a list of path strings: a stable sort by
the string order (stable insertion sort). -/
def pySorted (l : List PyStr) : List PyStr :=
  l.foldr insertSorted []

/-- `utils.get_image_files(directory, extensions)`.

The directory is modelled by a flag `dirExists` (the `directory.exists()`
check) and the list `dirFiles` of file names it contains.  The Python
body does, for each configured extension `ext`,
`files.extend(directory.glob(f"*{ext}"))` and
`files.extend(directory.glob(f"*{ext.upper()}"))`, then returns
`sorted(files)`.  A glob `*<suffix>` on a directory returns exactly the
entries whose name ends with `<suffix>` (case-sensitively, as on
Linux). -/
def get_image_files (dirExists : Bool) (dirFiles : List PyStr)
    (extensions : List PyStr) : List PyStr :=
  if !dirExists then []
  else
    pySorted (extensions.flatMap fun ext =>
      dirFiles.filter (fun f => ext.isSuffixOf f) ++
      dirFiles.filter (fun f => (pyUpper ext).isSuffixOf f))

/-! ## `display_controller.py` -/

/-- Result of a Python call that may let an exception escape:
`ok a` is a normal return, `exc` an uncaught exception propagating to
the caller. -/
inductive PyResult (α : Type) where
  | ok : α → PyResult α
  | exc : PyResult α
  deriving Repr, DecidableEq

/-- State of a `DisplayController` object, together with the module-level
`DISPLAY_AVAILABLE` flag (set by the `try: import waveshare_epd` at the
top of the file).  `epdSet` records whether `self.epd` is not `None`;
`savedFiles` records the numeric indices of the
`test_output/frame_{i:04d}.png` files written in simulation mode, in
write order. -/
structure DCState where
  displayAvailable : Bool
  epdSet : Bool
  refreshCount : ℕ
  savedFiles : List ℕ
  deriving Repr, DecidableEq

/-- A freshly constructed `DisplayController` (its `__init__`):
`self.epd = None`, `self.refresh_count = 0`. -/
def dcNew (displayAvailable : Bool) : DCState :=
  { displayAvailable := displayAvailable, epdSet := false,
    refreshCount := 0, savedFiles := [] }

/-- `DisplayController.initialize()`.  `ctorFault` is a fault in
`epd2in13_V2.EPD()` itself, `opFault` a fault in the subsequent
`init(0)`/`Clear(0xFF)` calls; both are inside the `try`, so the
`except` clause catches them and turns them into a `False` return
(after `EPD()` has succeeded, `self.epd` stays assigned even when
`init(0)`/`Clear` fail).  Hardware absence short-circuits to `False`
before anything is attempted. -/
def dcInit (ctorFault opFault : Bool) (s : DCState) :
    PyResult (DCState × Bool) :=
  if !s.displayAvailable then .ok (s, false)
  else if ctorFault then .ok (s, false)
  else
    let s' := { s with epdSet := true }
    if opFault then .ok (s', false) else .ok (s', true)

/-- `DisplayController.display_image(image, full_refresh)`.

Simulation branch (`not DISPLAY_AVAILABLE or self.epd is None`): the
`os.makedirs` / `image.save` calls are *not* inside a `try`, so a
storage fault (`simWriteFault`) escapes as an exception; otherwise the
bitmap is saved under index `refresh_count`, the counter is incremented
and `True` is returned.  Hardware branch: everything is inside a `try`,
so a driver fault (`hwFault`) yields an `ok false` return; on success
the counter is incremented and `True` returned.  The `full_refresh`
flag only triggers extra driver calls (also inside the `try`), so it
does not change this abstraction of the state. -/
def dcDisplayImage (simWriteFault hwFault : Bool) (s : DCState)
    (_fullRefresh : Bool) : PyResult (DCState × Bool) :=
  if !s.displayAvailable || !s.epdSet then
    if simWriteFault then .exc
    else
      .ok ({ s with savedFiles := s.savedFiles ++ [s.refreshCount],
                    refreshCount := s.refreshCount + 1 }, true)
  else
    if hwFault then .ok (s, false)
    else .ok ({ s with refreshCount := s.refreshCount + 1 }, true)

/-- `DisplayController.sleep()`: the driver call is guarded by
`DISPLAY_AVAILABLE and self.epd` and wrapped in `try/except`, so it
never raises and never changes the modelled state. -/
def dcSleep (_hwFault : Bool) (s : DCState) : PyResult DCState :=
  .ok s

/-- `DisplayController.clear()`: like `sleep`, guarded and wrapped, so
it never raises. -/
def dcClear (_hwFault : Bool) (s : DCState) : PyResult DCState :=
  .ok s

/-- `DisplayController.cleanup()`: `clear()` then `sleep()`. -/
def dcCleanup (hwFault : Bool) (s : DCState) : PyResult DCState :=
  match dcClear hwFault s with
  | .exc => .exc
  | .ok s' => dcSleep hwFault s'

/-- Iterated fault-free simulation-mode `display_image` calls
(used to state the numbered-output-file property). -/
def dcSimRun (s : DCState) : ℕ → DCState
  | 0 => s
  | n + 1 =>
    match dcDisplayImage false false s false with
    | .ok (s', _) => dcSimRun s' n
    | .exc => s

/-! ## `image_processor.py` -/

/-- A PIL image in `'1'` (1-bit) mode: explicit dimensions and a pixel
function (`true` = white `255`, `false` = black `0`).  Pixel values
outside `[0, width) × [0, height)` are irrelevant. -/
structure Bitmap where
  width : ℕ
  height : ℕ
  pix : ℕ → ℕ → Bool

/-- `ImageProcessor._resize_maintain_aspect`, at the level of
dimensions: `img_ratio = img.width / img.height`,
`display_ratio = self.width / self.height` (exact rational values of
the Python float divisions); if `img_ratio > display_ratio` fit to
width with `new_height = int(self.width / img_ratio)`, else fit to
height with `new_width = int(self.height * img_ratio)`; Python `int()`
truncates, which on these non-negative values is the floor. -/
def resize_maintain_aspect (selfW selfH srcW srcH : ℕ) : ℕ × ℕ :=
  let rImg : ℚ := (srcW : ℚ) / (srcH : ℚ)
  let rDisp : ℚ := (selfW : ℚ) / (selfH : ℚ)
  if rImg > rDisp then
    (selfW, (⌊(selfW : ℚ) / rImg⌋).toNat)
  else
    ((⌊(selfH : ℚ) * rImg⌋).toNat, selfH)

/-- `ImageProcessor._create_canvas(img)`: a white (`255`) canvas
`Image.new('1', (self.width, self.height), 255)`, with `img` pasted at
`((self.width - img.width) // 2, (self.height - img.height) // 2)` —
Python `//` is floor division, modelled by `Int.fdiv`.  A pasted pixel
outside the canvas is cropped by PIL, which the pixel-function model
gives for free. -/
def create_canvas (selfW selfH : ℕ) (img : Bitmap) : Bitmap :=
  let xOff : ℤ := ((selfW : ℤ) - (img.width : ℤ)).fdiv 2
  let yOff : ℤ := ((selfH : ℤ) - (img.height : ℤ)).fdiv 2
  { width := selfW, height := selfH,
    pix := fun x y =>
      if xOff ≤ (x : ℤ) ∧ (x : ℤ) < xOff + img.width ∧
         yOff ≤ (y : ℤ) ∧ (y : ℤ) < yOff + img.height then
        img.pix ((x : ℤ) - xOff).toNat ((y : ℤ) - yOff).toNat
      else true }

/-- `ImageProcessor._add_border(img, width)`:
`draw.rectangle([0, 0, self.width - 1, self.height - 1], outline=0,
width=width)` draws a black (`0`) rectangular outline `width` pixels
thick, extending inward from the bounding box, overwriting what is
under it; pixels outside the bounding box are untouched.  The image
object is modified in place, so its dimensions are unchanged. -/
def add_border (selfW selfH borderWidth : ℕ) (img : Bitmap) : Bitmap :=
  { width := img.width, height := img.height,
    pix := fun x y =>
      if x < selfW ∧ y < selfH ∧
         (x < borderWidth ∨ y < borderWidth ∨
          selfW ≤ x + borderWidth ∨ selfH ≤ y + borderWidth) then
        false
      else img.pix x y }

/-- `ImageProcessor.process_image(image_path, add_border, border_width)`.

The source file is modelled by `src : Option (ℕ × ℕ)`: `none` when
`Image.open` / decoding raises (the `except` clause then logs and
returns `None`), `some (srcW, srcH)` when it yields an image of that
size after EXIF transposition.  The pixel content produced by the PIL
collaborators (LANCZOS resampling, contrast enhancement, grayscale
conversion, Floyd–Steinberg dithering) is abstracted by `pixFn`, the
pixel function of the dithered image; each of those PIL stages
preserves the dimensions set by the resize, so the dithered image has
exactly the dimensions computed by `_resize_maintain_aspect`. -/
def process_image (selfW selfH : ℕ) (addBorder : Bool) (borderWidth : ℕ)
    (src : Option (ℕ × ℕ)) (pixFn : ℕ → ℕ → Bool) : Option Bitmap :=
  match src with
  | none => none
  | some (srcW, srcH) =>
    let dims := resize_maintain_aspect selfW selfH srcW srcH
    let dithered : Bitmap := ⟨dims.1, dims.2, pixFn⟩
    let finalImg := create_canvas selfW selfH dithered
    some (if addBorder then add_border selfW selfH borderWidth finalImg
          else finalImg)

/-! ## `picture_frame.py` -/

/-- The mutable cursor state of a `PictureFrame`: the image inventory
and the `current_index` / `refresh_count` counters.  Paths are taken in
an arbitrary type `α`. -/
structure FrameState (α : Type) where
  imageList : List α
  currentIndex : ℕ
  refreshCount : ℕ
  deriving Repr, DecidableEq

/-- The configuration fields of a `PictureFrame` that the cycle logic
reads. -/
structure FrameConfig where
  randomOrder : Bool
  fullClearInterval : ℕ
  sleepEnabled : Bool
  deriving Repr, DecidableEq

/-- `PictureFrame.__init__`: `image_list = []`, `current_index = 0`,
`refresh_count = 0`. -/
def frameNew (α : Type) : FrameState α :=
  { imageList := [], currentIndex := 0, refreshCount := 0 }

/-- The observable outcome of one `next_image` call: the state after the
call, the Boolean return value, whether `display.display_image` was
called and with which `full_refresh` flag, whether `display.sleep` was
called, and whether `random.shuffle` was called on the list. -/
structure CycleResult (α : Type) where
  state : FrameState α
  returned : Bool
  displayed : Option Bool
  slept : Bool
  reshuffled : Bool

/-- `PictureFrame.next_image()`.

`process` models `self.processor.process_image` (`none` = failure),
`shuffle` models `random.shuffle` (an arbitrary in-place reordering).
The Python steps in order: empty-list guard; select
`image_list[current_index]`; process (early `False` return on `None`);
`refresh_count += 1`; `full_refresh = (refresh_count %
full_clear_interval == 0)`; `display_image(..., full_refresh)`;
optional `display.sleep()`; `current_index = (current_index + 1) %
len(image_list)`; reshuffle when the new index is `0` and
`random_order` is set; return `True`. -/
def next_image {α : Type} [Inhabited α] (cfg : FrameConfig)
    (process : α → Option Bitmap) (shuffle : List α → List α)
    (s : FrameState α) : CycleResult α :=
  if s.imageList.isEmpty then
    ⟨s, false, none, false, false⟩
  else
    let imagePath := s.imageList.getD s.currentIndex default
    match process imagePath with
    | none => ⟨s, false, none, false, false⟩
    | some _ =>
      let rc := s.refreshCount + 1
      let fullRefresh : Bool := rc % cfg.fullClearInterval == 0
      let slept := cfg.sleepEnabled
      let newIndex := (s.currentIndex + 1) % s.imageList.length
      if newIndex == 0 && cfg.randomOrder then
        ⟨⟨shuffle s.imageList, newIndex, rc⟩, true, some fullRefresh,
         slept, true⟩
      else
        ⟨⟨s.imageList, newIndex, rc⟩, true, some fullRefresh,
         slept, false⟩

/-- `n` consecutive `next_image` calls; returns the final state and, in
call order, each call's `(returned, reshuffled)` pair. -/
def runCycles {α : Type} [Inhabited α] (cfg : FrameConfig)
    (process : α → Option Bitmap) (shuffle : List α → List α) :
    ℕ → FrameState α → FrameState α × List (Bool × Bool)
  | 0, s => (s, [])
  | n + 1, s =>
    let r := next_image cfg process shuffle s
    let rest := runCycles cfg process shuffle n r.state
    (rest.1, (r.returned, r.reshuffled) :: rest.2)

/-- `PictureFrame.load_images()`: replace `image_list` with the freshly
enumerated files (`newFiles`) and shuffle it when `random_order` is
set.  `current_index` and `refresh_count` are untouched. -/
def load_images {α : Type} (cfg : FrameConfig)
    (shuffle : List α → List α) (newFiles : List α)
    (s : FrameState α) : FrameState α :=
  { s with imageList :=
      if cfg.randomOrder then shuffle newFiles else newFiles }

/-- One iteration of the `while True` body of `PictureFrame.run()`:
re-enumerate the directory (into `load_images`) only when
`current_index == 0`, then call `next_image`.  The trailing
`time.sleep` does not touch the state. -/
def runLoopBody {α : Type} [Inhabited α] (cfg : FrameConfig)
    (process : α → Option Bitmap) (shuffle : List α → List α)
    (newFiles : List α) (s : FrameState α) : FrameState α :=
  let s1 := if s.currentIndex == 0
    then load_images cfg shuffle newFiles s else s
  (next_image cfg process shuffle s1).state

/-- The cursor invariant of `PictureFrame`: whenever the inventory is
non-empty, `current_index` is a valid index into it. -/
def FrameInv {α : Type} (s : FrameState α) : Prop :=
  s.imageList ≠ [] → s.currentIndex < s.imageList.length

/-! ## Helper lemmas about `next_image` -/

/-- With an empty inventory, `next_image` is the no-op failure result. -/
theorem next_image_empty {α : Type} [Inhabited α] (cfg : FrameConfig)
    (process : α → Option Bitmap) (shuffle : List α → List α)
    (s : FrameState α) (h : s.imageList.isEmpty = true) :
    next_image cfg process shuffle s = ⟨s, false, none, false, false⟩ := by
  unfold next_image
  simp [h]

/-- When processing the selected image fails, `next_image` is the no-op
failure result. -/
theorem next_image_fail {α : Type} [Inhabited α] (cfg : FrameConfig)
    (process : α → Option Bitmap) (shuffle : List α → List α)
    (s : FrameState α)
    (h : process (s.imageList.getD s.currentIndex default) = none) :
    next_image cfg process shuffle s = ⟨s, false, none, false, false⟩ := by
  unfold next_image
  split
  · rfl
  · simp only [h]

/-- When the inventory is non-empty and processing succeeds,
`next_image` computes exactly the source's updates. -/
theorem next_image_success {α : Type} [Inhabited α] (cfg : FrameConfig)
    (process : α → Option Bitmap) (shuffle : List α → List α)
    (s : FrameState α) (b : Bitmap)
    (hne : s.imageList.isEmpty = false)
    (hproc : process (s.imageList.getD s.currentIndex default) = some b) :
    next_image cfg process shuffle s =
      (if ((s.currentIndex + 1) % s.imageList.length == 0) &&
          cfg.randomOrder then
        ⟨⟨shuffle s.imageList, (s.currentIndex + 1) % s.imageList.length,
          s.refreshCount + 1⟩, true,
         some ((s.refreshCount + 1) % cfg.fullClearInterval == 0),
         cfg.sleepEnabled, true⟩
      else
        ⟨⟨s.imageList, (s.currentIndex + 1) % s.imageList.length,
          s.refreshCount + 1⟩, true,
         some ((s.refreshCount + 1) % cfg.fullClearInterval == 0),
         cfg.sleepEnabled, false⟩) := by
  unfold next_image
  simp only [hne, Bool.false_eq_true, if_false, hproc]

/-! ## Claims C2 and C3 -/

/-- C2: on a cycle where `process_image` returns the error outcome
(`None`), `next_image` returns `False` and the cycle is atomic:
the state (list, `current_index`, `refresh_count`) is unchanged,
`display_image` is not called (`displayed = none`) and `sleep` is not
called (`slept = false`). -/
theorem C2_processing_failure_atomic {α : Type} [Inhabited α]
    (cfg : FrameConfig) (process : α → Option Bitmap)
    (shuffle : List α → List α) (s : FrameState α)
    (hfail : process (s.imageList.getD s.currentIndex default) = none) :
    next_image cfg process shuffle s = ⟨s, false, none, false, false⟩ :=
  next_image_fail cfg process shuffle s hfail

/-- Witness for C2 at a concrete state: inventory `[5, 6]`, cursor `1`,
counter `3`, a processor that always fails. -/
theorem C2_processing_failure_atomic_witness :
    next_image ⟨true, 2, true⟩ (fun _ : ℕ => (none : Option Bitmap)) id
        ⟨[5, 6], 1, 3⟩ =
      ⟨⟨[5, 6], 1, 3⟩, false, none, false, false⟩ :=
  C2_processing_failure_atomic ⟨true, 2, true⟩
    (fun _ : ℕ => (none : Option Bitmap)) id ⟨[5, 6], 1, 3⟩ rfl

/-- C3: with `full_clear_interval = K ≥ 1`, every successful cycle first
increments `refresh_count` and then requests a full refresh exactly
when the incremented counter is divisible by `K` (partial otherwise);
in particular, starting from `refresh_count`, the refresh submitted is
full iff `(refresh_count + 1) % K = 0`. -/
theorem C3_full_refresh_cadence {α : Type} [Inhabited α]
    (cfg : FrameConfig) (process : α → Option Bitmap)
    (shuffle : List α → List α) (s : FrameState α) (b : Bitmap)
    (_hK : 1 ≤ cfg.fullClearInterval)
    (hne : s.imageList.isEmpty = false)
    (hproc : process (s.imageList.getD s.currentIndex default) = some b) :
    (next_image cfg process shuffle s).returned = true ∧
    (next_image cfg process shuffle s).state.refreshCount =
      s.refreshCount + 1 ∧
    (next_image cfg process shuffle s).displayed =
      some ((s.refreshCount + 1) % cfg.fullClearInterval == 0) ∧
    ((next_image cfg process shuffle s).displayed = some true ↔
      (s.refreshCount + 1) % cfg.fullClearInterval = 0) := by
  rw [next_image_success cfg process shuffle s b hne hproc]
  split <;>
    simp

/-- Witness for C3: `K = 2`, three successive cycles from a fresh
counter over the inventory `["a.jpg", "b.png"]` — cycle 1 partial,
cycle 2 full, cycle 3 partial, matching the claim's example — checked
here at cycle 2 (counter `1 → 2`, `2 % 2 = 0`, full refresh). -/
theorem C3_full_refresh_cadence_witness :
    (next_image ⟨false, 2, true⟩
        (fun _ : String => some ⟨250, 122, fun _ _ => true⟩) id
        ⟨["a.jpg", "b.png"], 1, 1⟩).returned = true ∧
    (next_image ⟨false, 2, true⟩
        (fun _ : String => some ⟨250, 122, fun _ _ => true⟩) id
        ⟨["a.jpg", "b.png"], 1, 1⟩).state.refreshCount = 1 + 1 ∧
    (next_image ⟨false, 2, true⟩
        (fun _ : String => some ⟨250, 122, fun _ _ => true⟩) id
        ⟨["a.jpg", "b.png"], 1, 1⟩).displayed =
      some ((1 + 1) % 2 == 0) ∧
    ((next_image ⟨false, 2, true⟩
        (fun _ : String => some ⟨250, 122, fun _ _ => true⟩) id
        ⟨["a.jpg", "b.png"], 1, 1⟩).displayed = some true ↔
      (1 + 1) % 2 = 0) :=
  C3_full_refresh_cadence ⟨false, 2, true⟩
    (fun _ : String => some ⟨250, 122, fun _ _ => true⟩) id
    ⟨["a.jpg", "b.png"], 1, 1⟩ ⟨250, 122, fun _ _ => true⟩
    (by decide) rfl rfl

/-! ## Claim C4: cursor wrap and reshuffle -/

/-- As long as the cursor does not reach the end of the list, successful
cycles advance it by one, do not reshuffle, and leave the list as is. -/
theorem runCycles_no_wrap {α : Type} [Inhabited α] (cfg : FrameConfig)
    (process : α → Option Bitmap) (shuffle : List α → List α)
    (hall : ∀ a : α, (process a).isSome = true) (k : ℕ) :
    ∀ (L : List α) (i rc : ℕ), i + k < L.length →
      runCycles cfg process shuffle k ⟨L, i, rc⟩ =
        (⟨L, i + k, rc + k⟩, List.replicate k (true, false)) := by
  induction k with
  | zero => intro L i rc h; simp [runCycles]
  | succ k ih =>
    intro L i rc h
    have hne : L.isEmpty = false := by
      cases L with
      | nil => simp at h
      | cons a t => rfl
    obtain ⟨b, hb⟩ := Option.isSome_iff_exists.mp
      (hall (L.getD i default))
    have hidx : (i + 1) % L.length = i + 1 :=
      Nat.mod_eq_of_lt (by omega)
    rw [runCycles]
    rw [next_image_success cfg process shuffle ⟨L, i, rc⟩ b hne hb]
    rw [if_neg (by simp [hidx])]
    simp only
    rw [hidx, ih L (i + 1) (rc + 1) (by omega)]
    refine Prod.ext ?_ rfl
    simp only
    congr 1 <;> omega

/-- Splitting a run of `m + n` cycles at the `m`-th cycle boundary. -/
theorem runCycles_add {α : Type} [Inhabited α] (cfg : FrameConfig)
    (process : α → Option Bitmap) (shuffle : List α → List α)
    (m n : ℕ) :
    ∀ s : FrameState α,
      runCycles cfg process shuffle (m + n) s =
        ((runCycles cfg process shuffle n
            (runCycles cfg process shuffle m s).1).1,
         (runCycles cfg process shuffle m s).2 ++
           (runCycles cfg process shuffle n
             (runCycles cfg process shuffle m s).1).2) := by
  induction m with
  | zero => intro s; simp [runCycles]
  | succ m ih =>
    intro s
    have hadd : m + 1 + n = (m + n) + 1 := by omega
    rw [hadd, runCycles, runCycles, ih]
    simp [runCycles]

/-- C4: over a non-empty inventory of size `N`, starting at cursor `0`,
`N` successful `next_image` calls return the cursor to `0`; every call
returns `True`; and the reshuffle event fires exactly at the wrapping
call (the `N`-th, whose advance produces index `0`) — and then only if
random order is enabled — and at no other call. -/
theorem C4_wrap_and_reshuffle {α : Type} [Inhabited α]
    (cfg : FrameConfig) (process : α → Option Bitmap)
    (shuffle : List α → List α) (L : List α) (N rc : ℕ)
    (hall : ∀ a : α, (process a).isSome = true)
    (hN : L.length = N) (hpos : 1 ≤ N) :
    (runCycles cfg process shuffle N ⟨L, 0, rc⟩).1.currentIndex = 0 ∧
    (runCycles cfg process shuffle N ⟨L, 0, rc⟩).2 =
      List.replicate (N - 1) (true, false) ++
        [(true, cfg.randomOrder)] := by
  obtain ⟨M, rfl⟩ : ∃ M, N = M + 1 := ⟨N - 1, by omega⟩
  have hne : L.isEmpty = false := by
    cases L with
    | nil => simp at hN
    | cons a t => rfl
  obtain ⟨b, hb⟩ := Option.isSome_iff_exists.mp
    (hall (L.getD M default))
  have hsplit := runCycles_add cfg process shuffle M 1 ⟨L, 0, rc⟩
  have hfirst := runCycles_no_wrap cfg process shuffle hall M L 0 rc
    (by omega)
  rw [hfirst] at hsplit
  simp only [Nat.zero_add] at hsplit
  have hlast :
      next_image cfg process shuffle ⟨L, M, rc + M⟩ =
        (if ((M + 1) % L.length == 0) && cfg.randomOrder then
          ⟨⟨shuffle L, (M + 1) % L.length, rc + M + 1⟩, true,
           some ((rc + M + 1) % cfg.fullClearInterval == 0),
           cfg.sleepEnabled, true⟩
        else
          ⟨⟨L, (M + 1) % L.length, rc + M + 1⟩, true,
           some ((rc + M + 1) % cfg.fullClearInterval == 0),
           cfg.sleepEnabled, false⟩) :=
    next_image_success cfg process shuffle ⟨L, M, rc + M⟩ b hne hb
  have hmod : (M + 1) % L.length = 0 := by
    rw [hN]
    exact Nat.mod_self (M + 1)
  rw [hmod] at hlast
  rw [hsplit]
  rw [show runCycles cfg process shuffle 1 ⟨L, M, rc + M⟩ =
        ((next_image cfg process shuffle ⟨L, M, rc + M⟩).state,
         [((next_image cfg process shuffle ⟨L, M, rc + M⟩).returned,
           (next_image cfg process shuffle ⟨L, M, rc + M⟩).reshuffled)])
      from by simp [runCycles]]
  rw [hlast]
  cases hro : cfg.randomOrder <;> simp

/-- Witness for C4: inventory `[1, 2, 3]` (size `3`), cursor `0`,
always-succeeding processor, reversal as the shuffle, random order on:
after 3 calls the cursor is back at `0` and the only reshuffle is at
call 3. -/
theorem C4_wrap_and_reshuffle_witness :
    (runCycles ⟨true, 10, true⟩
        (fun _ : ℕ => some ⟨1, 1, fun _ _ => true⟩) List.reverse 3
        ⟨[1, 2, 3], 0, 0⟩).1.currentIndex = 0 ∧
    (runCycles ⟨true, 10, true⟩
        (fun _ : ℕ => some ⟨1, 1, fun _ _ => true⟩) List.reverse 3
        ⟨[1, 2, 3], 0, 0⟩).2 =
      List.replicate (3 - 1) (true, false) ++ [(true, true)] :=
  C4_wrap_and_reshuffle ⟨true, 10, true⟩
    (fun _ : ℕ => some ⟨1, 1, fun _ _ => true⟩) List.reverse
    [1, 2, 3] 3 0 (fun _ => rfl) rfl (by decide)

/-! ## Claim C9: cursor invariant -/

/-- `next_image` preserves the cursor invariant, for any shuffle that
preserves the list length (as `random.shuffle`, an in-place
permutation, does). -/
theorem next_image_preserves_inv {α : Type} [Inhabited α]
    (cfg : FrameConfig) (process : α → Option Bitmap)
    (shuffle : List α → List α) (s : FrameState α)
    (hshuf : ∀ l : List α, (shuffle l).length = l.length)
    (hs : FrameInv s) :
    FrameInv (next_image cfg process shuffle s).state := by
  cases hne : s.imageList.isEmpty with
  | true => rw [next_image_empty cfg process shuffle s hne]; exact hs
  | false =>
    have hlen : 0 < s.imageList.length := by
      cases hL : s.imageList with
      | nil => rw [hL] at hne; simp at hne
      | cons a t => simp
    cases hp : process (s.imageList.getD s.currentIndex default) with
    | none => rw [next_image_fail cfg process shuffle s hp]; exact hs
    | some b =>
      rw [next_image_success cfg process shuffle s b hne hp]
      split
      · intro _
        simp only [hshuf]
        exact Nat.mod_lt _ hlen
      · intro _
        exact Nat.mod_lt _ hlen

/-- C9: the cursor invariant `0 ≤ current_index < len(image_list)`
(whenever the list is non-empty) is established at startup
(`current_index = 0` in `__init__`), preserved by every `next_image`
call (the modular advance wraps to `0` after the last element), and
preserved by a full `run`-loop iteration, whose re-enumeration of the
directory happens only when `current_index == 0`. -/
theorem C9_cursor_invariant {α : Type} [Inhabited α] (cfg : FrameConfig)
    (process : α → Option Bitmap) (shuffle : List α → List α)
    (newFiles : List α) (s : FrameState α)
    (hshuf : ∀ l : List α, (shuffle l).length = l.length)
    (hs : FrameInv s) :
    (FrameInv (frameNew α) ∧ (frameNew α).currentIndex = 0) ∧
    FrameInv (next_image cfg process shuffle s).state ∧
    FrameInv (runLoopBody cfg process shuffle newFiles s) := by
  refine ⟨⟨fun h => absurd rfl h, rfl⟩,
    next_image_preserves_inv cfg process shuffle s hshuf hs, ?_⟩
  unfold runLoopBody
  refine next_image_preserves_inv cfg process shuffle _ hshuf ?_
  cases hz : s.currentIndex == 0 with
  | true =>
    have hz' : s.currentIndex = 0 := by simpa using hz
    rw [if_pos rfl]
    intro hne
    unfold load_images
    simp only [hz']
    exact List.length_pos.mpr hne
  | false =>
    rw [if_neg (by simp)]
    exact hs

/-- Witness for C9 at a concrete state: inventory `[7, 9]`, cursor `1`,
identity shuffle, fresh directory contents `[4]`. -/
theorem C9_cursor_invariant_witness :
    (FrameInv (frameNew ℕ) ∧ (frameNew ℕ).currentIndex = 0) ∧
    FrameInv (next_image ⟨true, 10, true⟩
      (fun _ : ℕ => some ⟨1, 1, fun _ _ => true⟩) id ⟨[7, 9], 1, 5⟩).state ∧
    FrameInv (runLoopBody ⟨true, 10, true⟩
      (fun _ : ℕ => some ⟨1, 1, fun _ _ => true⟩) id [4] ⟨[7, 9], 1, 5⟩) :=
  C9_cursor_invariant ⟨true, 10, true⟩
    (fun _ : ℕ => some ⟨1, 1, fun _ _ => true⟩) id [4] ⟨[7, 9], 1, 5⟩
    (fun _ => rfl) (fun _ => Nat.lt_of_sub_eq_succ rfl)

/-! ## Claim C1: simulation mode -/

/-- Fault-free simulation-mode `display_image` calls append exactly the
consecutive indices `refresh_count, refresh_count+1, …` to the list of
written output files. -/
theorem dcSimRun_spec (n : ℕ) :
    ∀ s : DCState, s.displayAvailable = false →
      dcSimRun s n =
        { s with refreshCount := s.refreshCount + n,
                 savedFiles :=
                   s.savedFiles ++ List.range' s.refreshCount n } := by
  induction n with
  | zero => intro s hs; simp [dcSimRun]
  | succ n ih =>
    intro s hs
    have hsim : dcDisplayImage false false s false =
        .ok ({ s with savedFiles := s.savedFiles ++ [s.refreshCount],
                      refreshCount := s.refreshCount + 1 }, true) := by
      unfold dcDisplayImage
      rw [hs]
      rfl
    rw [dcSimRun, hsim]
    dsimp only
    rw [ih { s with refreshCount := s.refreshCount + 1,
                    savedFiles := s.savedFiles ++ [s.refreshCount] } hs]
    simp only [List.range'_succ, List.append_assoc, List.singleton_append]
    congr 1
    omega

/-- C1 counterexample: with the display library unavailable (the state
a fresh controller is in when the `waveshare_epd` import failed),
`initialize()` returns `False`, not `True` as the claim states — the
`if not DISPLAY_AVAILABLE` guard short-circuits before any fallback. -/
theorem C1_counterexample :
    dcInit false false (dcNew false) = .ok (dcNew false, false) := rfl

/-- C1 as amended: when the display library is unavailable,
`initialize()` returns `False` (leaving the state unchanged); every
`display_image` call nevertheless takes the simulation branch, persists
the bitmap under the numbered index `refresh_count`, increments the
counter and returns `True`, so across `n` successive calls from a fresh
controller the written file indices are exactly `0, …, n-1`, strictly
increasing. -/
theorem C1_simulation_mode (cf op : Bool) (s : DCState) (n : ℕ)
    (hs : s.displayAvailable = false) :
    dcInit cf op s = .ok (s, false) ∧
    dcDisplayImage false false s false =
      .ok ({ s with savedFiles := s.savedFiles ++ [s.refreshCount],
                    refreshCount := s.refreshCount + 1 }, true) ∧
    (dcSimRun (dcNew false) n).savedFiles = List.range n ∧
    List.Pairwise (· < ·) (dcSimRun (dcNew false) n).savedFiles := by
  have hrun := dcSimRun_spec n (dcNew false) rfl
  refine ⟨?_, ?_, ?_, ?_⟩
  · unfold dcInit
    rw [hs]
    rfl
  · unfold dcDisplayImage
    rw [hs]
    rfl
  · rw [hrun]
    simp [dcNew, List.range_eq_range']
  · rw [hrun]
    simpa [dcNew] using List.pairwise_lt_range' 0 n

/-- Witness for C1 at a concrete state (counter `2`, two files already
written) and `n = 3`. -/
theorem C1_simulation_mode_witness :
    dcInit true false ⟨false, false, 2, [0, 1]⟩ =
      .ok (⟨false, false, 2, [0, 1]⟩, false) ∧
    dcDisplayImage false false ⟨false, false, 2, [0, 1]⟩ false =
      .ok (⟨false, false, 3, [0, 1, 2]⟩, true) ∧
    (dcSimRun (dcNew false) 3).savedFiles = List.range 3 ∧
    List.Pairwise (· < ·) (dcSimRun (dcNew false) 3).savedFiles :=
  C1_simulation_mode true false ⟨false, false, 2, [0, 1]⟩ 3 rfl

/-! ## Claim C8: fault conversion -/

/-- C8 counterexample: in simulation mode the `os.makedirs` /
`image.save` calls in `display_image` are not inside any `try`, so a
storage fault there propagates to the caller as an uncaught exception
instead of a Boolean failure result. -/
theorem C8_counterexample :
    dcDisplayImage true false (dcNew false) false = .exc := rfl

/-- C8 as amended: every `DisplayController` operation converts
underlying hardware faults into a Boolean failure result or a logged
no-op — `initialize`, `sleep`, `clear`, `cleanup` never raise for any
fault pattern, and `display_image` never raises on the hardware path or
when the simulation-mode write succeeds — with the single exception of
the simulation-mode file write in `display_image`, which is not wrapped
and lets a storage fault escape as an exception. -/
theorem C8_fault_conversion (cf op hwf swf fr : Bool) (s : DCState)
    (hsim : s.displayAvailable = false ∨ s.epdSet = false) :
    dcInit cf op s ≠ .exc ∧
    dcSleep hwf s ≠ .exc ∧
    dcClear hwf s ≠ .exc ∧
    dcCleanup hwf s ≠ .exc ∧
    (∀ t : DCState, dcDisplayImage false hwf t fr ≠ .exc) ∧
    (∀ t : DCState, t.displayAvailable = true → t.epdSet = true →
      dcDisplayImage swf hwf t fr ≠ .exc) ∧
    dcDisplayImage true hwf s fr = .exc := by
  refine ⟨?_, ?_, ?_, ?_, ?_, ?_, ?_⟩
  · unfold dcInit
    split
    · simp
    · split
      · simp
      · split <;> simp
  · simp [dcSleep]
  · simp [dcClear]
  · simp [dcCleanup, dcClear, dcSleep]
  · intro t
    unfold dcDisplayImage
    split
    · simp
    · split <;> simp
  · intro t h1 h2
    unfold dcDisplayImage
    split
    · simp_all
    · split <;> simp
  · unfold dcDisplayImage
    have hcond : (!s.displayAvailable || !s.epdSet) = true := by
      rcases hsim with h | h <;> simp [h]
    rw [hcond]
    rfl

/-- Witness for C8 at a concrete simulation-mode state. -/
theorem C8_fault_conversion_witness :
    dcInit true true ⟨false, false, 0, []⟩ ≠ .exc ∧
    dcSleep true ⟨false, false, 0, []⟩ ≠ .exc ∧
    dcClear true ⟨false, false, 0, []⟩ ≠ .exc ∧
    dcCleanup true ⟨false, false, 0, []⟩ ≠ .exc ∧
    (∀ t : DCState, dcDisplayImage false true t true ≠ .exc) ∧
    (∀ t : DCState, t.displayAvailable = true → t.epdSet = true →
      dcDisplayImage true true t true ≠ .exc) ∧
    dcDisplayImage true true ⟨false, false, 0, []⟩ true = .exc :=
  C8_fault_conversion true true true true true ⟨false, false, 0, []⟩
    (Or.inl rfl)

/-! ## Claim C10: file enumeration -/

/-- Membership in an `insertSorted` insertion. -/
theorem mem_insertSorted (a b : PyStr) (l : List PyStr) :
    a ∈ insertSorted b l ↔ a = b ∨ a ∈ l := by
  induction l with
  | nil => simp [insertSorted]
  | cons c t ih =>
    unfold insertSorted
    split
    · simp
    · simp only [List.mem_cons, ih]
      tauto

/-- `pySorted` preserves membership. -/
theorem mem_pySorted (a : PyStr) (l : List PyStr) :
    a ∈ pySorted l ↔ a ∈ l := by
  induction l with
  | nil => simp [pySorted]
  | cons b t ih =>
    simp only [pySorted, List.foldr_cons, List.mem_cons]
    rw [show List.foldr insertSorted [] t = pySorted t from rfl] at *
    rw [mem_insertSorted, ih]

/-- C10 counterexample: the file `photo.Jpg` has extension `.Jpg`,
which equals the configured extension `.jpg` under case-insensitive
comparison, yet `get_image_files` does not include it: the enumeration
only globs the extension verbatim (`*.jpg`) and fully uppercased
(`*.JPG`), and a mixed-case extension matches neither pattern. -/
theorem C10_counterexample :
    List.map Char.toLower ['.', 'J', 'p', 'g'] = ".jpg".data ∧
    List.isSuffixOf ['.', 'J', 'p', 'g'] "photo.Jpg".data = true ∧
    "photo.Jpg".data ∉
      get_image_files true ["photo.Jpg".data] [".jpg".data] := by
  decide

/-- C10 as amended: for a present directory, the enumeration returns
exactly the files whose name ends with a configured extension verbatim
or with its fully uppercased form (`ext.upper()`); in particular every
such file is included, but a file whose extension matches a configured
one only under general case-insensitive comparison (e.g. `.Jpg` against
`.jpg`) is not. -/
theorem C10_extension_matching (dirFiles extensions : List PyStr)
    (f : PyStr) :
    f ∈ get_image_files true dirFiles extensions ↔
      ∃ ext ∈ extensions, f ∈ dirFiles ∧
        (ext.isSuffixOf f = true ∨
         (pyUpper ext).isSuffixOf f = true) := by
  unfold get_image_files
  simp only [Bool.not_true, if_false, Bool.false_eq_true, mem_pySorted,
    List.mem_flatMap, List.mem_append, List.mem_filter]
  exact exists_congr fun ext => by tauto

/-- Witness for C10's amended characterization: `a.JPG` is enumerated
for the configured extension `.jpg` (via the uppercased glob). -/
theorem C10_extension_matching_witness :
    "a.JPG".data ∈
      get_image_files true ["a.JPG".data, "b.txt".data] [".jpg".data] :=
  (C10_extension_matching ["a.JPG".data, "b.txt".data] [".jpg".data]
    "a.JPG".data).mpr ⟨".jpg".data, by decide, by decide, by decide⟩

/-! ## Claims C5, C6, C7: the image transform -/

/-- Bounds for `Int.toNat ∘ Int.floor` of a non-negative rational: the
truncated value is within one of the exact value. -/
theorem toNat_floor_bounds (q : ℚ) (hq : 0 ≤ q) :
    ((⌊q⌋.toNat : ℕ) : ℚ) ≤ q ∧ q < ((⌊q⌋.toNat : ℕ) : ℚ) + 1 := by
  have h0 : (0 : ℤ) ≤ ⌊q⌋ := Int.floor_nonneg.mpr hq
  have hcast : ((⌊q⌋.toNat : ℕ) : ℚ) = ((⌊q⌋ : ℤ) : ℚ) := by
    exact_mod_cast Int.toNat_of_nonneg h0
  rw [hcast]
  exact ⟨Int.floor_le q, Int.lt_floor_add_one q⟩

/-- Floor division by two splits its argument into two near-halves. -/
theorem fdiv_two_bounds (d : ℤ) :
    2 * d.fdiv 2 ≤ d ∧ d ≤ 2 * d.fdiv 2 + 1 := by
  have h := Int.fmod_add_fdiv d 2
  have h1 : 0 ≤ d.fmod 2 := Int.fmod_nonneg' d (by norm_num)
  have h2 : d.fmod 2 < 2 := Int.fmod_lt_of_pos d (by norm_num)
  omega

/-- C6: for a source of size `(srcW, srcH)` with `srcH > 0` and a
target `(selfW, selfH)` with `selfH > 0`, writing
`img_ratio = srcW/srcH` and `target_ratio = selfW/selfH`: when
`img_ratio > target_ratio` the resized dimensions are
`(selfW, floor(selfW / img_ratio))`, otherwise
`(floor(selfH * img_ratio), selfH)`; in both cases the derived
dimension is within one pixel (below) of the exact ratio-preserving
value, so the inscribed image's aspect ratio matches the source ratio
up to that rounding. -/
theorem C6_resize_preserves_aspect (selfW selfH srcW srcH : ℕ)
    (_hsrcH : 0 < srcH) (_hselfH : 0 < selfH) :
    ((srcW : ℚ) / (srcH : ℚ) > (selfW : ℚ) / (selfH : ℚ) →
      resize_maintain_aspect selfW selfH srcW srcH =
        (selfW, (⌊(selfW : ℚ) / ((srcW : ℚ) / (srcH : ℚ))⌋).toNat) ∧
      (((resize_maintain_aspect selfW selfH srcW srcH).2 : ℚ) ≤
         (selfW : ℚ) / ((srcW : ℚ) / (srcH : ℚ)) ∧
       (selfW : ℚ) / ((srcW : ℚ) / (srcH : ℚ)) <
         ((resize_maintain_aspect selfW selfH srcW srcH).2 : ℚ) + 1)) ∧
    (¬ (srcW : ℚ) / (srcH : ℚ) > (selfW : ℚ) / (selfH : ℚ) →
      resize_maintain_aspect selfW selfH srcW srcH =
        ((⌊(selfH : ℚ) * ((srcW : ℚ) / (srcH : ℚ))⌋).toNat, selfH) ∧
      (((resize_maintain_aspect selfW selfH srcW srcH).1 : ℚ) ≤
         (selfH : ℚ) * ((srcW : ℚ) / (srcH : ℚ)) ∧
       (selfH : ℚ) * ((srcW : ℚ) / (srcH : ℚ)) <
         ((resize_maintain_aspect selfW selfH srcW srcH).1 : ℚ) + 1)) := by
  constructor
  · intro hgt
    have heq : resize_maintain_aspect selfW selfH srcW srcH =
        (selfW, (⌊(selfW : ℚ) / ((srcW : ℚ) / (srcH : ℚ))⌋).toNat) := by
      unfold resize_maintain_aspect
      rw [if_pos hgt]
    have hq : (0 : ℚ) ≤ (selfW : ℚ) / ((srcW : ℚ) / (srcH : ℚ)) :=
      div_nonneg (Nat.cast_nonneg selfW)
        (div_nonneg (Nat.cast_nonneg srcW) (Nat.cast_nonneg srcH))
    have hb := toNat_floor_bounds _ hq
    rw [heq]
    exact ⟨rfl, hb.1, hb.2⟩
  · intro hle
    have heq : resize_maintain_aspect selfW selfH srcW srcH =
        ((⌊(selfH : ℚ) * ((srcW : ℚ) / (srcH : ℚ))⌋).toNat, selfH) := by
      unfold resize_maintain_aspect
      rw [if_neg hle]
    have hq : (0 : ℚ) ≤ (selfH : ℚ) * ((srcW : ℚ) / (srcH : ℚ)) :=
      mul_nonneg (Nat.cast_nonneg selfH)
        (div_nonneg (Nat.cast_nonneg srcW) (Nat.cast_nonneg srcH))
    have hb := toNat_floor_bounds _ hq
    rw [heq]
    exact ⟨rfl, hb.1, hb.2⟩

/-- Witness for C6: a 400×300 source on a 250×122 target falls in the
fit-to-height branch and resizes to `(⌊122·(4/3)⌋, 122) = (162, 122)`. -/
theorem C6_resize_preserves_aspect_witness :
    (((400 : ℕ) : ℚ) / ((300 : ℕ) : ℚ) >
        ((250 : ℕ) : ℚ) / ((122 : ℕ) : ℚ) →
      resize_maintain_aspect 250 122 400 300 =
        (250, (⌊((250 : ℕ) : ℚ) /
          (((400 : ℕ) : ℚ) / ((300 : ℕ) : ℚ))⌋).toNat) ∧
      (((resize_maintain_aspect 250 122 400 300).2 : ℚ) ≤
         ((250 : ℕ) : ℚ) / (((400 : ℕ) : ℚ) / ((300 : ℕ) : ℚ)) ∧
       ((250 : ℕ) : ℚ) / (((400 : ℕ) : ℚ) / ((300 : ℕ) : ℚ)) <
         ((resize_maintain_aspect 250 122 400 300).2 : ℚ) + 1)) ∧
    (¬ ((400 : ℕ) : ℚ) / ((300 : ℕ) : ℚ) >
        ((250 : ℕ) : ℚ) / ((122 : ℕ) : ℚ) →
      resize_maintain_aspect 250 122 400 300 =
        ((⌊((122 : ℕ) : ℚ) *
          (((400 : ℕ) : ℚ) / ((300 : ℕ) : ℚ))⌋).toNat, 122) ∧
      (((resize_maintain_aspect 250 122 400 300).1 : ℚ) ≤
         ((122 : ℕ) : ℚ) * (((400 : ℕ) : ℚ) / ((300 : ℕ) : ℚ)) ∧
       ((122 : ℕ) : ℚ) * (((400 : ℕ) : ℚ) / ((300 : ℕ) : ℚ)) <
         ((resize_maintain_aspect 250 122 400 300).1 : ℚ) + 1)) :=
  C6_resize_preserves_aspect 250 122 400 300 (by norm_num) (by norm_num)

/-- C5: whenever `process_image` succeeds, the returned bitmap has
exactly the target dimensions `(selfW, selfH)` (it is strictly 1-bit:
its pixels are `Bool`), and it is the all-white canvas with the
dithered inner image pasted at offset
`((selfW - img_w) // 2, (selfH - img_h) // 2)` (integer floor
division, `Int.fdiv`), optionally bordered afterwards; pixels inside
the paste rectangle come from the inner image, all other canvas pixels
are white, and the floor division leaves the left/top margin no larger
than — and at most one pixel smaller than — the right/bottom margin,
biasing an odd residual toward the top-left. -/
theorem C5_canvas_and_centering (selfW selfH bw srcW srcH : ℕ)
    (pixFn : ℕ → ℕ → Bool) (addB : Bool) (bmp : Bitmap)
    (h : process_image selfW selfH addB bw (some (srcW, srcH)) pixFn =
      some bmp) :
    bmp.width = selfW ∧ bmp.height = selfH ∧
    (addB = false → bmp = create_canvas selfW selfH
        ⟨(resize_maintain_aspect selfW selfH srcW srcH).1,
         (resize_maintain_aspect selfW selfH srcW srcH).2, pixFn⟩) ∧
    (addB = true → bmp = add_border selfW selfH bw (create_canvas selfW
        selfH
        ⟨(resize_maintain_aspect selfW selfH srcW srcH).1,
         (resize_maintain_aspect selfW selfH srcW srcH).2, pixFn⟩)) ∧
    (∀ img : Bitmap, ∀ x y : ℕ,
      ((selfW : ℤ) - img.width).fdiv 2 ≤ (x : ℤ) →
      (x : ℤ) < ((selfW : ℤ) - img.width).fdiv 2 + img.width →
      ((selfH : ℤ) - img.height).fdiv 2 ≤ (y : ℤ) →
      (y : ℤ) < ((selfH : ℤ) - img.height).fdiv 2 + img.height →
      (create_canvas selfW selfH img).pix x y =
        img.pix ((x : ℤ) - ((selfW : ℤ) - img.width).fdiv 2).toNat
          ((y : ℤ) - ((selfH : ℤ) - img.height).fdiv 2).toNat) ∧
    (∀ img : Bitmap, ∀ x y : ℕ,
      ¬(((selfW : ℤ) - img.width).fdiv 2 ≤ (x : ℤ) ∧
        (x : ℤ) < ((selfW : ℤ) - img.width).fdiv 2 + img.width ∧
        ((selfH : ℤ) - img.height).fdiv 2 ≤ (y : ℤ) ∧
        (y : ℤ) < ((selfH : ℤ) - img.height).fdiv 2 + img.height) →
      (create_canvas selfW selfH img).pix x y = true) ∧
    (∀ iw : ℕ, 2 * ((selfW : ℤ) - iw).fdiv 2 ≤ (selfW : ℤ) - iw ∧
      (selfW : ℤ) - iw ≤ 2 * ((selfW : ℤ) - iw).fdiv 2 + 1) ∧
    (∀ ih : ℕ, 2 * ((selfH : ℤ) - ih).fdiv 2 ≤ (selfH : ℤ) - ih ∧
      (selfH : ℤ) - ih ≤ 2 * ((selfH : ℤ) - ih).fdiv 2 + 1) := by
  have hbmp : bmp = (if addB then
      add_border selfW selfH bw (create_canvas selfW selfH
        ⟨(resize_maintain_aspect selfW selfH srcW srcH).1,
         (resize_maintain_aspect selfW selfH srcW srcH).2, pixFn⟩)
    else
      create_canvas selfW selfH
        ⟨(resize_maintain_aspect selfW selfH srcW srcH).1,
         (resize_maintain_aspect selfW selfH srcW srcH).2, pixFn⟩) :=
    (Option.some.inj h).symm
  refine ⟨?_, ?_, ?_, ?_, ?_, ?_, ?_, ?_⟩
  · rw [hbmp]; cases addB <;> rfl
  · rw [hbmp]; cases addB <;> rfl
  · intro hA; rw [hbmp, hA]; rfl
  · intro hA; rw [hbmp, hA]; rfl
  · intro img x y h1 h2 h3 h4
    unfold create_canvas
    dsimp only
    rw [if_pos ⟨h1, h2, h3, h4⟩]
  · intro img x y hn
    unfold create_canvas
    dsimp only
    rw [if_neg hn]
  · intro iw; exact fdiv_two_bounds _
  · intro ih; exact fdiv_two_bounds _

/-- Witness for C5: a 2×2 source on a 4×3 target, no border.
`resize_maintain_aspect 4 3 2 2 = (3, 3)` and the canvas places it at
`((4-3)//2, (3-3)//2) = (0, 0)`. -/
theorem C5_canvas_and_centering_witness :
    (create_canvas 4 3
        ⟨(resize_maintain_aspect 4 3 2 2).1,
         (resize_maintain_aspect 4 3 2 2).2,
         fun _ _ => false⟩).width = 4 ∧
    (create_canvas 4 3
        ⟨(resize_maintain_aspect 4 3 2 2).1,
         (resize_maintain_aspect 4 3 2 2).2,
         fun _ _ => false⟩).height = 3 ∧
    (false = false → create_canvas 4 3
        ⟨(resize_maintain_aspect 4 3 2 2).1,
         (resize_maintain_aspect 4 3 2 2).2, fun _ _ => false⟩ =
      create_canvas 4 3
        ⟨(resize_maintain_aspect 4 3 2 2).1,
         (resize_maintain_aspect 4 3 2 2).2, fun _ _ => false⟩) ∧
    (false = true → create_canvas 4 3
        ⟨(resize_maintain_aspect 4 3 2 2).1,
         (resize_maintain_aspect 4 3 2 2).2, fun _ _ => false⟩ =
      add_border 4 3 1 (create_canvas 4 3
        ⟨(resize_maintain_aspect 4 3 2 2).1,
         (resize_maintain_aspect 4 3 2 2).2, fun _ _ => false⟩)) ∧
    (∀ img : Bitmap, ∀ x y : ℕ,
      ((4 : ℤ) - img.width).fdiv 2 ≤ (x : ℤ) →
      (x : ℤ) < ((4 : ℤ) - img.width).fdiv 2 + img.width →
      ((3 : ℤ) - img.height).fdiv 2 ≤ (y : ℤ) →
      (y : ℤ) < ((3 : ℤ) - img.height).fdiv 2 + img.height →
      (create_canvas 4 3 img).pix x y =
        img.pix ((x : ℤ) - ((4 : ℤ) - img.width).fdiv 2).toNat
          ((y : ℤ) - ((3 : ℤ) - img.height).fdiv 2).toNat) ∧
    (∀ img : Bitmap, ∀ x y : ℕ,
      ¬(((4 : ℤ) - img.width).fdiv 2 ≤ (x : ℤ) ∧
        (x : ℤ) < ((4 : ℤ) - img.width).fdiv 2 + img.width ∧
        ((3 : ℤ) - img.height).fdiv 2 ≤ (y : ℤ) ∧
        (y : ℤ) < ((3 : ℤ) - img.height).fdiv 2 + img.height) →
      (create_canvas 4 3 img).pix x y = true) ∧
    (∀ iw : ℕ, 2 * ((4 : ℤ) - iw).fdiv 2 ≤ (4 : ℤ) - iw ∧
      (4 : ℤ) - iw ≤ 2 * ((4 : ℤ) - iw).fdiv 2 + 1) ∧
    (∀ ih : ℕ, 2 * ((3 : ℤ) - ih).fdiv 2 ≤ (3 : ℤ) - ih ∧
      (3 : ℤ) - ih ≤ 2 * ((3 : ℤ) - ih).fdiv 2 + 1) :=
  C5_canvas_and_centering 4 3 1 2 2 (fun _ _ => false) false
    (create_canvas 4 3
      ⟨(resize_maintain_aspect 4 3 2 2).1,
       (resize_maintain_aspect 4 3 2 2).2, fun _ _ => false⟩) rfl

/-- C7: with border drawing enabled (width `N = bw`), the border is
applied last (`process_image` with the border flag equals the
border-free result post-composed with `_add_border`), never changes the
canvas dimensions, overwrites every canvas pixel within `bw` of the
canvas edge with the border colour (black), and leaves every pixel
strictly inside that frame unchanged. -/
theorem C7_border_frame (selfW selfH bw : ℕ) (img : Bitmap) :
    (add_border selfW selfH bw img).width = img.width ∧
    (add_border selfW selfH bw img).height = img.height ∧
    (∀ x y : ℕ, bw ≤ x → x + bw < selfW → bw ≤ y → y + bw < selfH →
      (add_border selfW selfH bw img).pix x y = img.pix x y) ∧
    (∀ x y : ℕ, x < selfW → y < selfH →
      (x < bw ∨ y < bw ∨ selfW ≤ x + bw ∨ selfH ≤ y + bw) →
      (add_border selfW selfH bw img).pix x y = false) ∧
    (∀ (src : Option (ℕ × ℕ)) (pixFn : ℕ → ℕ → Bool),
      process_image selfW selfH true bw src pixFn =
        (process_image selfW selfH false bw src pixFn).map
          (add_border selfW selfH bw)) := by
  refine ⟨rfl, rfl, ?_, ?_, ?_⟩
  · intro x y h1 h2 h3 h4
    unfold add_border
    dsimp only
    rw [if_neg (by omega)]
  · intro x y hx hy hd
    unfold add_border
    dsimp only
    rw [if_pos ⟨hx, hy, hd⟩]
  · intro src pixFn
    cases src with
    | none => rfl
    | some p => rfl

/-- Witness for C7 on a concrete 4×4 all-white canvas with a 1-pixel
border: the interior pixel `(1,1)` is unchanged (white) and the edge
pixel `(0,2)` is overwritten to black. -/
theorem C7_border_frame_witness :
    (add_border 4 4 1 ⟨4, 4, fun _ _ => true⟩).pix 1 1 = true ∧
    (add_border 4 4 1 ⟨4, 4, fun _ _ => true⟩).pix 0 2 = false := by
  have h := C7_border_frame 4 4 1 ⟨4, 4, fun _ _ => true⟩
  exact ⟨h.2.2.1 1 1 (by decide) (by decide) (by decide) (by decide),
         h.2.2.2.1 0 2 (by decide) (by decide) (Or.inl (by decide))⟩

end EPaperFrame
